import Mathlib

/-
  Verification development for the Receptionist telephony bridge.

  Shallow embedding of the audio pipeline, transcript manager, tenant
  resolution, transcript analyzer validation and AI token accumulator of
  the repository (src/new_exotel_bridge.py, src/transcript_analyzer.py,
  src/ai_token_tracker.py), together with theorems settling the spec
  claims about them.

  Audio is modelled at two levels: byte lists (List Nat, each entry one
  byte 0..255) mirroring Python bytes, and sample lists (List Int)
  mirroring the 16-bit little-endian mono PCM frames the code works on.
-/

namespace Receptionist

/-! Audio rate conversion.

`resample_audio` (src/new_exotel_bridge.py lines 556-588) delegates to
the CPython `audioop.ratecv` primitive with width 2, one channel and a
fresh `None` state on every call, keeping only the first component of
the result.  `ratecv` reduces the two rates by their gcd, scales each
16-bit sample to 32 bits (shift left by 16), and runs a linear
interpolation loop: starting from `d = -outrate` it reads one input
sample per step, adds `outrate` to `d`, and while `d` is nonnegative it
emits `(prev*d + cur*(outrate-d)) / outrate` (C double division
truncated toward zero, here `Int.tdiv`), shifted back down by 16 bits
(arithmetic shift, here `Int.fdiv` by 65536), subtracting `inrate` from
`d` after each emission.  The emission loop is rendered below in closed
form: for `0 ≤ d` it runs `d / inrate + 1` times at `d, d - inrate, …`.
This embedding was checked against `audioop.ratecv` (outputs and
returned state) on randomized inputs for all rate pairs the bridge
uses. -/

/-- Converter state: interpolation phase `d` and the previous and
current input samples, both scaled by 2^16 as in `audioop.ratecv`. -/
structure RatecvState where
  d : Int
  prev : Int
  cur : Int
deriving DecidableEq

/-- One emitted output sample of the interpolation loop: truncated
division by `outrate` on the 32-bit scaled samples, then an arithmetic
shift right by 16 bits (floor division by 65536). -/
def outSample (outrate : Nat) (prev cur d : Int) : Int :=
  Int.fdiv (Int.tdiv (prev * d + cur * ((outrate : Int) - d)) (outrate : Int)) 65536

/-- Number of iterations of the inner `while d ≥ 0` emission loop. -/
def emitCount (inrate : Nat) (d : Int) : Nat :=
  if 0 ≤ d ∧ 0 < inrate then d.toNat / inrate + 1 else 0

/-- The inner emission loop in closed form: samples at phases
`d, d - inrate, …` while nonnegative, together with the final phase. -/
def emitRun (inrate outrate : Nat) (prev cur : Int) (d : Int) : List Int × Int :=
  let k := emitCount inrate d
  ((List.range k).map (fun i => outSample outrate prev cur (d - (inrate : Int) * i)),
   d - (inrate : Int) * k)

/-- The main `ratecv` loop over the input samples, threading the
converter state exactly as the C implementation does. -/
def ratecvGo (inrate outrate : Nat) (st : RatecvState) : List Int → List Int × RatecvState
  | [] => ([], st)
  | x :: xs =>
    let prev := st.cur
    let cur := x * 65536
    let e := emitRun inrate outrate prev cur (st.d + (outrate : Int))
    let r := ratecvGo inrate outrate ⟨e.2, prev, cur⟩ xs
    (e.1 ++ r.1, r.2)

/-- Initial converter state used when Python passes `state = None`. -/
def ratecvInit (outrate : Nat) : RatecvState :=
  ⟨-(outrate : Int), 0, 0⟩

/-- Model of `audioop.ratecv` on 16-bit mono samples with a `None` state: reduce
the rates by their gcd and run the loop from the initial state. -/
def ratecvSamples (samples : List Int) (inrate outrate : Nat) : List Int :=
  let g := Nat.gcd inrate outrate
  (ratecvGo (inrate / g) (outrate / g) (ratecvInit (outrate / g)) samples).1

/-- Decode a byte list as 16-bit little-endian signed samples, pairwise.
A trailing odd byte yields no sample (the byte-level caller guards this
case separately, since `ratecv` raises on a fractional frame count). -/
def bytesToSamples : List Nat → List Int
  | lo :: hi :: rest =>
    (if lo + 256 * hi < 32768 then ((lo + 256 * hi : Nat) : Int)
     else ((lo + 256 * hi : Nat) : Int) - 65536) :: bytesToSamples rest
  | _ => []

/-- Encode 16-bit signed samples back to little-endian bytes. -/
def samplesToBytes : List Int → List Nat
  | [] => []
  | s :: rest =>
    (s.emod 65536).toNat % 256 :: (s.emod 65536).toNat / 256 :: samplesToBytes rest

/-- Model of `resample_audio(audio_data, src_sample_rate, dst_sample_rate)` from
src/new_exotel_bridge.py: return the input unchanged when the rates are
equal or a rate is nonpositive; also return the input unchanged when
the byte count is odd, since `audioop.ratecv` then raises and the
`except` branch falls back to the original audio.  Otherwise run the
converter with a fresh initial state and keep only the audio part. -/
def resampleAudio (audioData : List Nat) (srcRate dstRate : Int) : List Nat :=
  if srcRate = dstRate then audioData
  else if srcRate ≤ 0 ∨ dstRate ≤ 0 then audioData
  else if audioData.length % 2 ≠ 0 then audioData
  else samplesToBytes (ratecvSamples (bytesToSamples audioData) srcRate.toNat dstRate.toNat)

/-! Outbound audio flush (`GeminiSession._send_audio_to_exotel`,
src/new_exotel_bridge.py lines 1440-1542).  The buffered Gemini output
is padded with zero bytes up to `min_chunk_size` (3840) when smaller,
resampled from `GEMINI_OUTPUT_SAMPLE_RATE` (24000) down to
`EXOTEL_SAMPLE_RATE` (8000), base64-encoded and sent as one `media`
frame.  Base64 encoding and decoding cancel, so the decoded payload of
the emitted frame is exactly the resampled buffer modelled here. -/

/-- Value of `self.min_chunk_size` (3840) from `GeminiSession.__init__`. -/
def minChunkSize : Nat := 3840

/-- Zero padding applied to a below-minimum buffer before resampling. -/
def padBuffer (buffer : List Nat) : List Nat :=
  if buffer.length < minChunkSize then
    buffer ++ List.replicate (minChunkSize - buffer.length) 0
  else buffer

/-- Decoded payload of the `media` frame emitted for one flush of the
outbound buffer: pad, then downsample 24000 Hz to 8000 Hz. -/
def sendAudioPayload (buffer : List Nat) : List Nat :=
  resampleAudio (padBuffer buffer) 24000 8000

/-! Inbound audio path (`GeminiSession.continue_receiving_from_exotel`,
src/new_exotel_bridge.py lines 1187-1207).  Each incoming `media` frame
is base64-decoded and, when its declared rate (default 8000) differs
from `GEMINI_SAMPLE_RATE` (16000), passed through `resample_audio`
before being forwarded to the LLM.  Every frame is a separate
`resample_audio` call, so the converter state never crosses frames. -/

/-- Per-frame inbound upsampling of one decoded telephony payload at
the default declared rate of 8000 Hz. -/
def inboundUpsample (frame : List Nat) : List Nat :=
  resampleAudio frame 8000 16000

/-! Outbound telephony frames and sequence numbers.

`GeminiSession.__init__` starts `sequence_number`, `audio_chunk_counter`
and the keep-alive counter at 0.  `_send_audio_to_exotel` (lines
1440-1542) first increments `audio_chunk_counter`, then increments
`sequence_number` and sends a `media` frame carrying it, then
increments it again and sends a `mark` frame named
`audio_chunk_<counter>`.  `send_keep_alive_messages` (lines 1544-1628)
increments its own counter and `sequence_number` and sends a `mark`
frame named `keep_alive_<counter>`.  The trace below models the
post-`start` session (stream id set) with every socket send
succeeding; sequence numbers are written on the wire as decimal
strings, modelled by their numeric value. -/

/-- One outbound telephony frame: event kind, the sequence number it
carries, and the mark name when the event is a `mark`. -/
structure TelFrame where
  event : String
  sequenceNumber : Nat
  markName : Option String
deriving DecidableEq

/-- One send opportunity of a session: a buffer flush (media + mark) or
a keep-alive tick (mark only). -/
inductive TelCmd
  | flush
  | keepAlive
deriving DecidableEq

/-- Frames and counter updates of one `_send_audio_to_exotel` call:
the chunk counter increments at entry, the media frame takes the next
sequence number and the mark frame the one after. -/
def sendAudioFrames (seq chunkCounter : Nat) : List TelFrame × Nat × Nat :=
  ([⟨"media", seq + 1, none⟩,
    ⟨"mark", seq + 2, some ("audio_chunk_" ++ toString (chunkCounter + 1))⟩],
   seq + 2, chunkCounter + 1)

/-- Frames and counter updates of one keep-alive tick. -/
def keepAliveFrames (seq kaCounter : Nat) : List TelFrame × Nat × Nat :=
  ([⟨"mark", seq + 1, some ("keep_alive_" ++ toString (kaCounter + 1))⟩],
   seq + 1, kaCounter + 1)

/-- Run a session trace from given sequence, chunk and keep-alive
counters, collecting every emitted frame in order. -/
def runSession : List TelCmd → Nat → Nat → Nat → List TelFrame
  | [], _, _, _ => []
  | TelCmd.flush :: cs, seq, chunk, ka =>
    let r := sendAudioFrames seq chunk
    r.1 ++ runSession cs r.2.1 r.2.2 ka
  | TelCmd.keepAlive :: cs, seq, chunk, ka =>
    let r := keepAliveFrames seq ka
    r.1 ++ runSession cs r.2.1 chunk r.2.2

/-- All frames a session emits, starting from the initial counters. -/
def sessionFrames (cmds : List TelCmd) : List TelFrame :=
  runSession cmds 0 0 0

/-- The sequence numbers carried by the emitted frames, in order. -/
def emittedSeqs (cmds : List TelCmd) : List Nat :=
  (sessionFrames cmds).map (·.sequenceNumber)

/-! Transcript manager (src/new_exotel_bridge.py lines 29-103).
`add_to_transcript` appends a role/text turn after stripping the text,
skipping empty or whitespace-only text.  `_merge_consecutive_messages`
groups consecutive same-role turns, joining their texts with a single
space, using a `None` sentinel for the initial role and Python
truthiness (`if current_role:`) before appending a finished group. -/

/-- One transcript turn. -/
structure Turn where
  role : String
  text : String
deriving DecidableEq

/-- Model of `TranscriptManager.add_to_transcript`: append the stripped text
under the role when the text and its strip are both non-empty. -/
def addToTranscript (conv : List Turn) (role text : String) : List Turn :=
  if text ≠ "" ∧ text.trim ≠ "" then conv ++ [⟨role, text.trim⟩] else conv

/-- The merge loop of `_merge_consecutive_messages`: the accumulator is
the current group (role and concatenated text), `none` initially; a
finished group is appended only when its role is truthy (non-empty). -/
def mergeGo : List Turn → Option (String × String) → List Turn
  | [], none => []
  | [], some (r, t) => if r ≠ "" then [⟨r, t⟩] else []
  | m :: ms, none => mergeGo ms (some (m.role, m.text))
  | m :: ms, some (r, t) =>
    if m.role = r then mergeGo ms (some (r, t ++ " " ++ m.text))
    else (if r ≠ "" then [⟨r, t⟩] else []) ++ mergeGo ms (some (m.role, m.text))

/-- Model of `TranscriptManager._merge_consecutive_messages` on a conversation
list (an empty conversation is returned unchanged). -/
def mergeConsecutiveMessages (conv : List Turn) : List Turn :=
  mergeGo conv none

/-- A conversation built by a sequence of `add_to_transcript` calls
starting from the empty transcript. -/
def buildTranscript (calls : List (String × String)) : List Turn :=
  calls.foldl (fun conv p => addToTranscript conv p.1 p.2) []

/-! Tenant override on the `start` frame.  The live entry point
`GeminiSession.run` (src/new_exotel_bridge.py lines 977-995) adopts
`custom_parameters.tenant` unconditionally whenever it is present.  The
alternative path `wait_for_start_message` (lines 1097-1106, reachable
only through the unused `receive_from_exotel`) first checks that the
tenant has a prompt file in the tenant repository and keeps the default
tenant otherwise.  The repository is modelled as the list of tenant
ids that have a prompt file. -/

/-- Tenant chosen by `GeminiSession.run` after the `start` frame:
any `custom_parameters.tenant` value replaces the default. -/
def runTenantFromStart (custom : Option String) (tenantDefault : String) : String :=
  match custom with
  | some newTenant => newTenant
  | none => tenantDefault

/-- Tenant chosen by `GeminiSession.wait_for_start_message`: the
override is adopted only when its prompt file exists. -/
def waitForStartTenant (repoTenants : List String) (custom : Option String)
    (tenantDefault : String) : String :=
  match custom with
  | some t => if t ∈ repoTenants then t else tenantDefault
  | none => tenantDefault

/-! Transcript analyzer validation (src/transcript_analyzer.py,
`analyze_transcript` lines 144-167).  The model response text is parsed
as JSON; a decode failure yields a fixed fallback object.  A parsed
value that is not an object, or an object without a `call_type` key,
raises `ValueError`, caught by the generic handler, yielding a second
fixed fallback object.  A `call_type` value outside the allowed list is
overwritten with `Others` in place; the rest of the object (including
`summary` and `key_details`) is returned as the model produced it.
JSON values are modelled by an inductive type; numbers are modelled as
integers, which is adequate here because numeric leaves are only ever
passed through unchanged. -/

/-- JSON values as handled by the analyzer. -/
inductive Json where
  | null
  | bool (b : Bool)
  | num (n : Int)
  | str (s : String)
  | arr (elems : List Json)
  | obj (fields : List (String × Json))

/-- Dictionary read: first binding of the key, if any. -/
def jsonLookup (fields : List (String × Json)) (key : String) : Option Json :=
  match fields with
  | [] => none
  | (k, v) :: rest => if k = key then some v else jsonLookup rest key

/-- Dictionary assignment: replace the first binding of the key in
place, appending when the key is absent, as a Python dict does. -/
def jsonSet (fields : List (String × Json)) (key : String) (val : Json) :
    List (String × Json) :=
  match fields with
  | [] => [(key, val)]
  | (k, v) :: rest =>
    if k = key then (k, val) :: rest else (k, v) :: jsonSet rest key val

/-- Read a key out of a JSON value when it is an object. -/
def jsonGet (j : Json) (key : String) : Option Json :=
  match j with
  | Json.obj fields => jsonLookup fields key
  | _ => none

/-- Fallback result of the `json.JSONDecodeError` handler. -/
def decodeErrorFallback : Json :=
  Json.obj [("call_type", Json.str "Others"),
            ("summary", Json.str "Failed to analyze call due to JSON decoding error"),
            ("key_details", Json.obj [])]

/-- Fallback result of the generic exception handler. -/
def unexpectedErrorFallback : Json :=
  Json.obj [("call_type", Json.str "Others"),
            ("summary", Json.str "Failed to analyze call due to an unexpected error"),
            ("key_details", Json.obj [])]

/-- Membership test `extracted_data["call_type"] in call_types`: a
decoded JSON value equals an entry of the string list only when it is
that string. -/
def callTypeAllowed (v : Json) (callTypes : List String) : Bool :=
  match v with
  | Json.str s => callTypes.contains s
  | _ => false

/-- Validation stage of `analyze_transcript` on the parsed model
response (`none` models a JSON decode failure). -/
def analyzeValidate (parsed : Option Json) (callTypes : List String) : Json :=
  match parsed with
  | none => decodeErrorFallback
  | some (Json.obj fields) =>
    match jsonLookup fields "call_type" with
    | none => unexpectedErrorFallback
    | some v =>
      if callTypeAllowed v callTypes then Json.obj fields
      else Json.obj (jsonSet fields "call_type" (Json.str "Others"))
  | some _ => unexpectedErrorFallback

/-! AI token accumulator (src/ai_token_tracker.py,
`CallTokenAccumulator`).  `self.tokens` is a dict from operation name
to a per-operation record; the three mutators only ever touch the keys
`conversation`, `transcript_analysis` and `whatsapp_generation`.
`add_conversation_tokens` inserts a fresh record on first call and on
later calls adds the three counters into the existing record, keeping
its model and breakdown.  `add_analysis_tokens` and
`add_whatsapp_tokens` overwrite their key with a fresh record.
`get_total_summary` sums `total_tokens` over all stored records into
`total_tokens_all_operations`. -/

/-- Usage metadata of a Live API message as read by
`add_conversation_tokens` (`getattr` with default 0; the breakdown list
only when the object carries the field). -/
structure UsageMetadata where
  totalTokenCount : Nat
  inputTokenCount : Nat
  outputTokenCount : Nat
  responseTokensDetails : Option (List (String × Nat))
deriving DecidableEq

/-- Usage metadata of a `generate_content` response as read by
`add_analysis_tokens` and `add_whatsapp_tokens`. -/
structure GenUsage where
  totalTokenCount : Nat
  promptTokenCount : Nat
  candidatesTokenCount : Nat
  thoughtsTokenCount : Nat
deriving DecidableEq

/-- The record stored under the `conversation` key. -/
structure ConvEntry where
  model : String
  totalTokens : Nat
  inputTokens : Nat
  outputTokens : Nat
  responseBreakdown : Option (List (String × Nat))
deriving DecidableEq

/-- The fresh `conversation_tokens` record built from usage metadata. -/
def mkConversationTokens (u : UsageMetadata) (model : String) : ConvEntry :=
  ⟨model, u.totalTokenCount, u.inputTokenCount, u.outputTokenCount,
   u.responseTokensDetails⟩

/-- Model of `add_conversation_tokens` restricted to the `conversation` entry it
manipulates: `None` usage returns unchanged; a first call stores the
fresh record; later calls add the three counters into the existing
record. -/
def addConversationTokens (st : Option ConvEntry) (usage : Option UsageMetadata)
    (model : String) : Option ConvEntry :=
  match usage with
  | none => st
  | some u =>
    let fresh := mkConversationTokens u model
    match st with
    | none => some fresh
    | some e =>
      some ⟨e.model, e.totalTokens + fresh.totalTokens,
            e.inputTokens + fresh.inputTokens,
            e.outputTokens + fresh.outputTokens, e.responseBreakdown⟩

/-- Iterated application: n successive `add_conversation_tokens` calls with the same
arguments. -/
def repeatAddConversation : Nat → Option ConvEntry → Option UsageMetadata →
    String → Option ConvEntry
  | 0, st, _, _ => st
  | n + 1, st, u, m => addConversationTokens (repeatAddConversation n st u m) u m

/-- A record stored in the accumulator dict under one operation key. -/
inductive OpData where
  | conversation (e : ConvEntry)
  | analysis (model : String) (total prompt candidates thoughts : Nat)
  | whatsapp (model : String) (total prompt candidates thoughts : Nat)
deriving DecidableEq

/-- The `total_tokens` field of a stored record (every record the
mutators store carries one, so the `.get` default 0 is never used). -/
def opTotal : OpData → Nat
  | OpData.conversation e => e.totalTokens
  | OpData.analysis _ total _ _ _ => total
  | OpData.whatsapp _ total _ _ _ => total

/-- The accumulator dict `self.tokens`, insertion-ordered. -/
abbrev TokensMap : Type := List (String × OpData)

/-- Dict read on the tokens map. -/
def lookupTok (st : TokensMap) (key : String) : Option OpData :=
  match st with
  | [] => none
  | (k, v) :: rest => if k = key then some v else lookupTok rest key

/-- Dict assignment on the tokens map: replace in place or append. -/
def setTok (st : TokensMap) (key : String) (v : OpData) : TokensMap :=
  match st with
  | [] => [(key, v)]
  | (k, w) :: rest =>
    if k = key then (k, v) :: rest else (k, w) :: setTok rest key v

/-- Model of `add_conversation_tokens` acting on the whole tokens map. -/
def accAddConversation (st : TokensMap) (usage : Option UsageMetadata)
    (model : String) : TokensMap :=
  match usage with
  | none => st
  | some u =>
    match lookupTok st "conversation" with
    | some (OpData.conversation e) =>
      setTok st "conversation"
        (OpData.conversation
          ⟨e.model, e.totalTokens + u.totalTokenCount,
           e.inputTokens + u.inputTokenCount,
           e.outputTokens + u.outputTokenCount, e.responseBreakdown⟩)
    | some _ => st
    | none => setTok st "conversation" (OpData.conversation (mkConversationTokens u model))

/-- Model of `add_analysis_tokens`: overwrite the `transcript_analysis` key. -/
def accAddAnalysis (st : TokensMap) (usage : Option GenUsage) (model : String) :
    TokensMap :=
  match usage with
  | none => st
  | some u =>
    setTok st "transcript_analysis"
      (OpData.analysis model u.totalTokenCount u.promptTokenCount
        u.candidatesTokenCount u.thoughtsTokenCount)

/-- Model of `add_whatsapp_tokens`: overwrite the `whatsapp_generation` key. -/
def accAddWhatsapp (st : TokensMap) (usage : Option GenUsage) (model : String) :
    TokensMap :=
  match usage with
  | none => st
  | some u =>
    setTok st "whatsapp_generation"
      (OpData.whatsapp model u.totalTokenCount u.promptTokenCount
        u.candidatesTokenCount u.thoughtsTokenCount)

/-- One mutating call on the accumulator. -/
inductive AccOp where
  | conv (usage : Option UsageMetadata) (model : String)
  | analysis (usage : Option GenUsage) (model : String)
  | whatsapp (usage : Option GenUsage) (model : String)

/-- Apply a sequence of mutating calls to an accumulator state. -/
def applyAccOps (ops : List AccOp) (st : TokensMap) : TokensMap :=
  match ops with
  | [] => st
  | AccOp.conv u m :: rest => applyAccOps rest (accAddConversation st u m)
  | AccOp.analysis u m :: rest => applyAccOps rest (accAddAnalysis st u m)
  | AccOp.whatsapp u m :: rest => applyAccOps rest (accAddWhatsapp st u m)

/-- The `total_tokens_all_operations` value `get_total_summary`
computes: the running sum of `total_tokens` over the stored records. -/
def totalSummaryTotal (st : TokensMap) : Nat :=
  st.foldl (fun acc kv => acc + opTotal kv.2) 0

/-- Reads `total_tokens` of the record under a key, zero when absent. -/
def lookupTotal (st : TokensMap) (key : String) : Nat :=
  match lookupTok st key with
  | some v => opTotal v
  | none => 0

/-- Outcome of the Supabase update in `save_to_database`. -/
inductive DbResponse where
  | updated
  | noRows
  | failure

/-- Model of `save_to_database`: an empty tokens map returns success without
touching the database; otherwise the summary is written and success
reflects whether a row was updated (`failure` models a raised
exception, caught and turned into `False`).  The second component is
the payload handed to the database update, `none` when no update
went through. -/
def saveToDatabase (st : TokensMap) (resp : DbResponse) :
    Bool × Option (TokensMap × Nat) :=
  if st = [] then (true, none)
  else
    match resp with
    | DbResponse.updated => (true, some (st, totalSummaryTotal st))
    | DbResponse.noRows => (false, some (st, totalSummaryTotal st))
    | DbResponse.failure => (false, none)

/-! Helper lemmas. -/

/-- Appending to a non-empty string stays non-empty. -/
theorem string_append_ne_empty (s t : String) (h : s ≠ "") : s ++ t ≠ "" := by
  intro hc
  have h2 : (s ++ t).data = ("" : String).data := congrArg String.data hc
  rw [String.data_append] at h2
  exact h (String.ext (List.append_eq_nil.mp h2).1)

/-- Byte length of an encoded sample list. -/
theorem samplesToBytes_length (ss : List Int) :
    (samplesToBytes ss).length = 2 * ss.length := by
  induction ss with
  | nil => rfl
  | cons s rest ih => simp [samplesToBytes, ih]; omega

/-- Sample count of a decoded byte list (an odd trailing byte yields no
sample, matching the floor division). -/
theorem bytesToSamples_length (bs : List Nat) :
    (bytesToSamples bs).length = bs.length / 2 := by
  induction bs using bytesToSamples.induct with
  | case1 lo hi rest ih => simp [bytesToSamples, ih]; omega
  | case2 bs h => cases bs with
    | nil => simp [bytesToSamples]
    | cons b rest =>
      cases rest with
      | nil => simp [bytesToSamples]
      | cons c rest2 => exact absurd rfl (h b c rest2)

/-- Padding yields the larger of the buffer length and the minimum. -/
theorem padBuffer_length (buffer : List Nat) :
    (padBuffer buffer).length = max buffer.length minChunkSize := by
  unfold padBuffer
  split <;> simp [minChunkSize] at * <;> omega

/-- The converter loop processes a concatenation exactly as it
processes the two halves with the intermediate state threaded. -/
theorem ratecvGo_append (inrate outrate : Nat) (xs ys : List Int) (st : RatecvState) :
    ratecvGo inrate outrate st (xs ++ ys)
      = ((ratecvGo inrate outrate st xs).1
          ++ (ratecvGo inrate outrate (ratecvGo inrate outrate st xs).2 ys).1,
         (ratecvGo inrate outrate (ratecvGo inrate outrate st xs).2 ys).2) := by
  induction xs generalizing st with
  | nil => simp [ratecvGo]
  | cons x xs ih =>
    simp only [List.cons_append, ratecvGo, List.append_eq]
    rw [ih]
    simp [List.append_assoc]

/-- Emission step at phase zero for reduced rates 3 and 1: one sample
comes out and the phase drops to -3. -/
theorem emitRun_down_zero (p c : Int) :
    emitRun 3 1 p c 0 = ([outSample 1 p c 0], -3) :=
  rfl

/-- Emission step at a negative phase: nothing comes out. -/
theorem emitRun_neg (inrate outrate : Nat) (p c : Int) (d : Int) (h : d < 0) :
    emitRun inrate outrate p c d = ([], d) := by
  unfold emitRun emitCount
  rw [if_neg (by omega)]
  simp

/-- Output count of the 24 kHz to 8 kHz loop (reduced rates 3 and 1):
from a phase in the reachable range the loop emits one sample per three
inputs, offset by the phase. -/
theorem ratecvGo_down_length (xs : List Int) : ∀ (d p c : Int),
    d = -1 ∨ d = -2 ∨ d = -3 →
    ((ratecvGo 3 1 ⟨d, p, c⟩ xs).1).length = (xs.length + (d + 3).toNat) / 3 := by
  induction xs with
  | nil =>
    intro d p c h
    rcases h with rfl | rfl | rfl <;> rfl
  | cons x xs ih =>
    intro d p c h
    rcases h with rfl | rfl | rfl
    · simp only [ratecvGo]
      norm_num [emitRun_down_zero]
      rw [ih (-3) c (x * 65536) (by norm_num)]
      omega
    · simp only [ratecvGo]
      norm_num [emitRun_neg 3 1 c (x * 65536) (-1) (by norm_num)]
      rw [ih (-1) c (x * 65536) (by norm_num)]
      omega
    · simp only [ratecvGo]
      norm_num [emitRun_neg 3 1 c (x * 65536) (-2) (by norm_num)]
      rw [ih (-2) c (x * 65536) (by norm_num)]
      omega

/-- Decoded payload size of one outbound flush: half the padded byte
count is the sample count, the converter keeps one sample in three
rounded up, and each output sample is two bytes. -/
theorem sendAudioPayload_length (buffer : List Nat) (h : buffer.length % 2 = 0) :
    (sendAudioPayload buffer).length
      = 2 * ((max buffer.length minChunkSize / 2 + 2) / 3) := by
  have hpad : (padBuffer buffer).length = max buffer.length minChunkSize :=
    padBuffer_length buffer
  have hev : (padBuffer buffer).length % 2 = 0 := by
    rw [hpad]; simp [minChunkSize]; omega
  unfold sendAudioPayload resampleAudio
  rw [if_neg (by norm_num), if_neg (by norm_num), if_neg (by omega)]
  have h1 : Int.toNat 24000 = 24000 := rfl
  have h2 : Int.toNat 8000 = 8000 := rfl
  rw [h1, h2]
  have hg : Nat.gcd 24000 8000 = 8000 := by norm_num
  have h3 : ratecvSamples (bytesToSamples (padBuffer buffer)) 24000 8000
      = (ratecvGo 3 1 ⟨-1, 0, 0⟩ (bytesToSamples (padBuffer buffer))).1 := by
    simp only [ratecvSamples, ratecvInit, hg]
    norm_num
  rw [h3, samplesToBytes_length, ratecvGo_down_length _ (-1) 0 0 (by norm_num),
    bytesToSamples_length, hpad]
  rfl

/-- Unfold a length-(2+n) unit range into its first two elements. -/
theorem range'_two_cons (s n : Nat) :
    List.range' s (2 + n) = s :: (s + 1) :: List.range' (s + 2) n := by
  have h : 2 + n = (n + 1) + 1 := by omega
  rw [h, List.range'_succ, List.range'_succ]

/-- Unfold a length-(1+n) unit range into its first element. -/
theorem range'_one_cons (s n : Nat) :
    List.range' s (1 + n) = s :: List.range' (s + 1) n := by
  rw [Nat.add_comm 1 n, List.range'_succ]

/-- A unit-step `List.range'` is a strictly increasing chain. -/
theorem chain_lt_range (s n : Nat) :
    List.Chain' (fun a b => a < b) (List.range' s n) := by
  induction n generalizing s with
  | zero => simp
  | succ k ih =>
    rw [List.range'_succ]
    cases k with
    | zero => simp
    | succ j =>
      rw [List.range'_succ]
      exact List.Chain'.cons (by omega) (by rw [← List.range'_succ]; exact ih (s + 1))

/-- The emitted sequence numbers of a session trace started at any
counter values are the consecutive numbers from the next counter. -/
theorem runSession_seqs (cmds : List TelCmd) : ∀ (seq chunk ka : Nat),
    (runSession cmds seq chunk ka).map (fun f => f.sequenceNumber)
      = List.range' (seq + 1) (runSession cmds seq chunk ka).length := by
  induction cmds with
  | nil => intro seq chunk ka; rfl
  | cons c cs ih =>
    intro seq chunk ka
    cases c with
    | flush =>
      simp only [runSession, sendAudioFrames, List.map_append, List.length_append]
      rw [ih]
      simp only [List.map_cons, List.map_nil, List.length_cons, List.length_nil]
      rw [range'_two_cons]
      norm_num
    | keepAlive =>
      simp only [runSession, keepAliveFrames, List.map_append, List.length_append]
      rw [ih]
      simp only [List.map_cons, List.map_nil, List.length_cons, List.length_nil]
      rw [range'_one_cons]
      norm_num

/-- Reading back the key just assigned yields the assigned value. -/
theorem jsonLookup_jsonSet_self (fields : List (String × Json)) (key : String)
    (v : Json) : jsonLookup (jsonSet fields key v) key = some v := by
  induction fields with
  | nil => simp [jsonSet, jsonLookup]
  | cons kv rest ih =>
    obtain ⟨k, w⟩ := kv
    by_cases hk : k = key
    · subst hk; simp [jsonSet, jsonLookup]
    · simp [jsonSet, jsonLookup, hk, ih]

/-- Assignment leaves every other key unchanged. -/
theorem jsonLookup_jsonSet_other (fields : List (String × Json)) (key k : String)
    (v : Json) (h : k ≠ key) :
    jsonLookup (jsonSet fields key v) k = jsonLookup fields k := by
  induction fields with
  | nil =>
    simp only [jsonSet, jsonLookup]
    rw [if_neg (fun hh => h hh.symm)]
  | cons kv rest ih =>
    obtain ⟨k0, w⟩ := kv
    by_cases hk : k0 = key
    · subst hk
      simp only [jsonSet, if_pos rfl, jsonLookup]
      rw [if_neg (fun hh => h hh.symm), if_neg (fun hh => h hh.symm)]
    · simp only [jsonSet, if_neg hk, jsonLookup]
      by_cases hkk : k0 = k
      · rw [if_pos hkk, if_pos hkk]
      · rw [if_neg hkk, if_neg hkk, ih]

/-! Claim theorems. -/

/-- A key not among the stored keys reads back as absent. -/
theorem lookupTok_eq_none_of_not_mem (st : TokensMap) (key : String)
    (h : key ∉ st.map Prod.fst) : lookupTok st key = none := by
  induction st with
  | nil => rfl
  | cons kv rest ih =>
    obtain ⟨k, v⟩ := kv
    simp only [List.map_cons, List.mem_cons] at h
    push_neg at h
    simp only [lookupTok]
    rw [if_neg (fun hh => h.1 hh.symm)]
    exact ih h.2

/-- The summary fold with an arbitrary initial accumulator. -/
theorem foldl_opTotal (st : TokensMap) : ∀ (a : Nat),
    st.foldl (fun acc kv => acc + opTotal kv.2) a = a + totalSummaryTotal st := by
  induction st with
  | nil => intro a; simp [totalSummaryTotal]
  | cons kv rest ih =>
    intro a
    simp only [totalSummaryTotal, List.foldl_cons]
    rw [ih (a + opTotal kv.2), ih (0 + opTotal kv.2)]
    omega

/-- Unfolding the summary total one stored record at a time. -/
theorem totalSummaryTotal_cons (k : String) (v : OpData) (rest : TokensMap) :
    totalSummaryTotal ((k, v) :: rest) = opTotal v + totalSummaryTotal rest := by
  have h1 : totalSummaryTotal ((k, v) :: rest)
      = rest.foldl (fun acc kv => acc + opTotal kv.2) (0 + opTotal v) := rfl
  rw [h1, foldl_opTotal rest (0 + opTotal v)]
  omega

/-- For a map with distinct keys drawn from the three operation names,
the summary total is the sum of the three per-operation totals. -/
theorem sum_eq_three_ops (st : TokensMap)
    (hnd : (st.map Prod.fst).Nodup)
    (hsub : ∀ k ∈ st.map Prod.fst,
      k = "conversation" ∨ k = "transcript_analysis" ∨ k = "whatsapp_generation") :
    totalSummaryTotal st
      = lookupTotal st "conversation" + lookupTotal st "transcript_analysis"
        + lookupTotal st "whatsapp_generation" := by
  induction st with
  | nil => rfl
  | cons kv rest ih =>
    obtain ⟨k, v⟩ := kv
    simp only [List.map_cons, List.nodup_cons] at hnd
    have hz : lookupTotal rest k = 0 := by
      unfold lookupTotal
      rw [lookupTok_eq_none_of_not_mem rest k hnd.1]
    have hrec := ih hnd.2 (fun k2 hk2 => hsub k2 (by simp [hk2]))
    have hk := hsub k (by simp)
    rw [totalSummaryTotal_cons, hrec]
    rcases hk with rfl | rfl | rfl
    · have e1 : lookupTotal (("conversation", v) :: rest) "conversation"
          = opTotal v := by simp [lookupTotal, lookupTok]
      have e2 : lookupTotal (("conversation", v) :: rest) "transcript_analysis"
          = lookupTotal rest "transcript_analysis" := by simp [lookupTotal, lookupTok]
      have e3 : lookupTotal (("conversation", v) :: rest) "whatsapp_generation"
          = lookupTotal rest "whatsapp_generation" := by simp [lookupTotal, lookupTok]
      rw [e1, e2, e3]
      omega
    · have e1 : lookupTotal (("transcript_analysis", v) :: rest) "conversation"
          = lookupTotal rest "conversation" := by simp [lookupTotal, lookupTok]
      have e2 : lookupTotal (("transcript_analysis", v) :: rest) "transcript_analysis"
          = opTotal v := by simp [lookupTotal, lookupTok]
      have e3 : lookupTotal (("transcript_analysis", v) :: rest) "whatsapp_generation"
          = lookupTotal rest "whatsapp_generation" := by simp [lookupTotal, lookupTok]
      rw [e1, e2, e3]
      omega
    · have e1 : lookupTotal (("whatsapp_generation", v) :: rest) "conversation"
          = lookupTotal rest "conversation" := by simp [lookupTotal, lookupTok]
      have e2 : lookupTotal (("whatsapp_generation", v) :: rest) "transcript_analysis"
          = lookupTotal rest "transcript_analysis" := by simp [lookupTotal, lookupTok]
      have e3 : lookupTotal (("whatsapp_generation", v) :: rest) "whatsapp_generation"
          = opTotal v := by simp [lookupTotal, lookupTok]
      rw [e1, e2, e3]
      omega

/-- Keys after a dict assignment: unchanged when present, appended when
absent. -/
theorem setTok_map_fst (st : TokensMap) (key : String) (v : OpData) :
    (setTok st key v).map Prod.fst
      = if key ∈ st.map Prod.fst then st.map Prod.fst
        else st.map Prod.fst ++ [key] := by
  induction st with
  | nil => simp [setTok]
  | cons kv rest ih =>
    obtain ⟨k, w⟩ := kv
    by_cases hk : k = key
    · subst hk
      simp [setTok]
    · have hk2 : ¬ key = k := fun hh => hk hh.symm
      simp only [setTok, if_neg hk, List.map_cons, List.mem_cons, hk2, false_or]
      rw [ih]
      by_cases hmem : key ∈ rest.map Prod.fst
      · rw [if_pos hmem, if_pos hmem]
      · rw [if_neg hmem, if_neg hmem]
        simp

/-- Dict assignment with an operation-name key preserves distinctness
of keys and keeps all keys among the three operation names. -/
theorem setTok_inv (st : TokensMap) (key : String) (v : OpData)
    (hnd : (st.map Prod.fst).Nodup)
    (hkey : key = "conversation" ∨ key = "transcript_analysis"
      ∨ key = "whatsapp_generation")
    (hsub : ∀ k ∈ st.map Prod.fst,
      k = "conversation" ∨ k = "transcript_analysis" ∨ k = "whatsapp_generation") :
    ((setTok st key v).map Prod.fst).Nodup ∧
    (∀ k ∈ (setTok st key v).map Prod.fst,
      k = "conversation" ∨ k = "transcript_analysis"
        ∨ k = "whatsapp_generation") := by
  rw [setTok_map_fst]
  by_cases hmem : key ∈ st.map Prod.fst
  · rw [if_pos hmem]
    exact ⟨hnd, hsub⟩
  · rw [if_neg hmem]
    constructor
    · refine List.Nodup.append hnd (List.nodup_singleton key) ?_
      intro a ha hb
      simp only [List.mem_singleton] at hb
      subst hb
      exact hmem ha
    · intro k hk
      rcases List.mem_append.mp hk with hold | hnew
      · exact hsub k hold
      · simp only [List.mem_singleton] at hnew
        subst hnew
        exact hkey

/-- Every state the accumulator can reach from empty has distinct keys
drawn from the three operation names. -/
theorem applyAccOps_inv (ops : List AccOp) : ∀ (st : TokensMap),
    (st.map Prod.fst).Nodup →
    (∀ k ∈ st.map Prod.fst,
      k = "conversation" ∨ k = "transcript_analysis" ∨ k = "whatsapp_generation") →
    ((applyAccOps ops st).map Prod.fst).Nodup ∧
    (∀ k ∈ (applyAccOps ops st).map Prod.fst,
      k = "conversation" ∨ k = "transcript_analysis"
        ∨ k = "whatsapp_generation") := by
  induction ops with
  | nil => intro st h1 h2; exact ⟨h1, h2⟩
  | cons op rest ih =>
    intro st h1 h2
    cases op with
    | conv u m =>
      cases u with
      | none => exact ih st h1 h2
      | some u =>
        simp only [applyAccOps, accAddConversation]
        cases hlk : lookupTok st "conversation" with
        | none =>
          have hs := setTok_inv st "conversation"
            (OpData.conversation (mkConversationTokens u m)) h1 (by simp) h2
          exact ih _ hs.1 hs.2
        | some d =>
          cases d with
          | conversation e =>
            have hs := setTok_inv st "conversation"
              (OpData.conversation
                ⟨e.model, e.totalTokens + u.totalTokenCount,
                 e.inputTokens + u.inputTokenCount,
                 e.outputTokens + u.outputTokenCount, e.responseBreakdown⟩)
              h1 (by simp) h2
            exact ih _ hs.1 hs.2
          | analysis m2 t p cd th => exact ih st h1 h2
          | whatsapp m2 t p cd th => exact ih st h1 h2
    | analysis u m =>
      cases u with
      | none => exact ih st h1 h2
      | some u =>
        simp only [applyAccOps, accAddAnalysis]
        have hs := setTok_inv st "transcript_analysis"
          (OpData.analysis m u.totalTokenCount u.promptTokenCount
            u.candidatesTokenCount u.thoughtsTokenCount) h1 (by simp) h2
        exact ih _ hs.1 hs.2
    | whatsapp u m =>
      cases u with
      | none => exact ih st h1 h2
      | some u =>
        simp only [applyAccOps, accAddWhatsapp]
        have hs := setTok_inv st "whatsapp_generation"
          (OpData.whatsapp m u.totalTokenCount u.promptTokenCount
            u.candidatesTokenCount u.thoughtsTokenCount) h1 (by simp) h2
        exact ih _ hs.1 hs.2

/-- C8: for every accumulator state reachable by any sequence of token
recording calls, the total_tokens_all_operations value in the persisted
summary is the sum of the total_tokens of the conversation,
transcript_analysis and whatsapp_generation records, with never
recorded operations contributing zero. -/
theorem total_summary_grand_total (ops : List AccOp) :
    totalSummaryTotal (applyAccOps ops []) =
      lookupTotal (applyAccOps ops []) "conversation"
      + lookupTotal (applyAccOps ops []) "transcript_analysis"
      + lookupTotal (applyAccOps ops []) "whatsapp_generation" := by
  have hinv := applyAccOps_inv ops [] (by simp) (by simp)
  exact sum_eq_three_ops _ hinv.1 hinv.2

/-- C9: for every byte string and every sample rate, resampling with
equal source and destination rates returns the input byte-identically:
`resample_audio` short-circuits before touching the converter. -/
theorem resample_same_rate_noop (audioData : List Nat) (rate : Int) :
    resampleAudio audioData rate rate = audioData := by
  simp [resampleAudio]

/-- C10: when no token usage was recorded (the tokens map is empty),
`save_to_database` issues no database update and reports success,
whatever the database would have answered. -/
theorem save_empty_tokens_no_write (resp : DbResponse) :
    saveToDatabase [] resp = (true, none) := by
  simp [saveToDatabase]

/-- C5 counterexample: a `start` frame carrying a tenant unknown to the
tenant repository (here an empty repository) does not leave the session
on its default tenant: the live `run` path adopts the override
unconditionally, so the claim fails at this input. -/
theorem tenant_override_counterexample :
    "ghost" ∉ ([] : List String) ∧
    runTenantFromStart (some "ghost") "bakery" = "ghost" ∧
    runTenantFromStart (some "ghost") "bakery" ≠ "bakery" :=
  ⟨by simp, rfl, by simp [runTenantFromStart]⟩

/-- C5 amended: only the `wait_for_start_message` path validates the
override, keeping the default tenant for a tenant absent from the
repository; the `run` path the server actually invokes adopts any
override unconditionally. -/
theorem tenant_override_amended (repoTenants : List String)
    (t tenantDefault : String) (h : t ∉ repoTenants) :
    waitForStartTenant repoTenants (some t) tenantDefault = tenantDefault ∧
    runTenantFromStart (some t) tenantDefault = t := by
  constructor
  · simp [waitForStartTenant, h]
  · rfl

/-- C5 witness: the amended statement at a concrete unknown tenant. -/
theorem tenant_override_amended_witness :
    "ghost" ∉ (["bakery", "saloon"] : List String) ∧
    (waitForStartTenant ["bakery", "saloon"] (some "ghost") "bakery" = "bakery" ∧
     runTenantFromStart (some "ghost") "bakery" = "ghost") :=
  ⟨by simp, tenant_override_amended ["bakery", "saloon"] "ghost" "bakery" (by simp)⟩

/-- C7 counterexample: calling `add_conversation_tokens` a second time
with the same usage record and model does not leave the conversation
entry equal to the single-call result; the totals double. -/
theorem add_conversation_tokens_counterexample :
    addConversationTokens
        (addConversationTokens none (some ⟨5, 3, 2, none⟩) "gemini-2.0-flash-exp")
        (some ⟨5, 3, 2, none⟩) "gemini-2.0-flash-exp"
      ≠ addConversationTokens none (some ⟨5, 3, 2, none⟩) "gemini-2.0-flash-exp" := by
  decide

/-- C7 amended: repeated `add_conversation_tokens` calls accumulate
rather than replace: after n calls with the same usage record the
conversation totals are n times the single-call totals, while the model
name and response breakdown stay those of the first call. -/
theorem add_conversation_tokens_amended (n : Nat) (hn : 0 < n)
    (u : UsageMetadata) (m : String) :
    repeatAddConversation n none (some u) m
      = some ⟨m, n * u.totalTokenCount, n * u.inputTokenCount,
              n * u.outputTokenCount, u.responseTokensDetails⟩ := by
  induction n with
  | zero => exact absurd hn (by omega)
  | succ k ih =>
    rcases Nat.eq_zero_or_pos k with h0 | hk
    · subst h0
      simp [repeatAddConversation, addConversationTokens, mkConversationTokens]
    · rw [repeatAddConversation, ih hk]
      simp [addConversationTokens, mkConversationTokens]
      constructor <;> [skip; constructor] <;> ring

/-- C7 witness: two identical calls from the empty accumulator yield
doubled totals. -/
theorem add_conversation_tokens_amended_witness :
    0 < 2 ∧
    repeatAddConversation 2 none (some ⟨5, 3, 2, none⟩) "gemini-2.0-flash-exp"
      = some ⟨"gemini-2.0-flash-exp", 2 * 5, 2 * 3, 2 * 2, none⟩ :=
  ⟨by decide, add_conversation_tokens_amended 2 (by decide) ⟨5, 3, 2, none⟩
    "gemini-2.0-flash-exp"⟩

/-- C4 counterexample: resampling two consecutive inbound frames the
way the session does (a fresh converter per frame) differs from running
the converter once across their concatenation, which is what threaded
state would give; at this input the stateless splice even has a
different length. -/
theorem resample_state_threading_counterexample :
    inboundUpsample [100, 0] ++ inboundUpsample [100, 0]
      ≠ samplesToBytes
          ((ratecvGo 1 2 (ratecvInit 2) (bytesToSamples ([100, 0] ++ [100, 0]))).1) := by
  decide

/-- C4 amended: the underlying converter does thread its filter state -
processing a concatenation equals processing the chunks in sequence
with the returned state passed along - but `resample_audio` as the
inbound path calls it starts from the initial (`None`) state on every
frame and discards the returned state, so each frame is converted
independently. -/
theorem ratecv_state_threading_amended (inrate outrate : Nat)
    (st : RatecvState) (xs ys : List Int) (frame : List Nat)
    (h : frame.length % 2 = 0) :
    (ratecvGo inrate outrate st (xs ++ ys)).1
      = (ratecvGo inrate outrate st xs).1
        ++ (ratecvGo inrate outrate (ratecvGo inrate outrate st xs).2 ys).1 ∧
    inboundUpsample frame
      = samplesToBytes ((ratecvGo 1 2 (ratecvInit 2) (bytesToSamples frame)).1) := by
  constructor
  · rw [ratecvGo_append]
  · unfold inboundUpsample resampleAudio
    rw [if_neg (by norm_num), if_neg (by norm_num), if_neg (by omega)]
    have hg : Nat.gcd 8000 16000 = 8000 := by norm_num
    have h1 : Int.toNat 8000 = 8000 := rfl
    have h2 : Int.toNat 16000 = 16000 := rfl
    rw [h1, h2]
    simp only [ratecvSamples, hg]

/-- C4 witness: the amended statement at concrete frames. -/
theorem ratecv_state_threading_amended_witness :
    ([100, 0] : List Nat).length % 2 = 0 ∧
    ((ratecvGo 1 2 (ratecvInit 2) ([5] ++ [7])).1
      = (ratecvGo 1 2 (ratecvInit 2) [5]).1
        ++ (ratecvGo 1 2 (ratecvGo 1 2 (ratecvInit 2) [5]).2 [7]).1 ∧
     inboundUpsample [100, 0]
      = samplesToBytes ((ratecvGo 1 2 (ratecvInit 2) (bytesToSamples [100, 0])).1)) :=
  ⟨by decide, ratecv_state_threading_amended 1 2 (ratecvInit 2) [5] [7] [100, 0] (by decide)⟩

/-- C1 counterexample: a 3842-byte buffer (above the 3840-byte padding
floor) flushes to a decoded payload of 1282 bytes, which is neither a
multiple of 320 bytes nor at least 3840 bytes, so the claim fails: the
padding happens before the 24 kHz to 8 kHz downsampling, not after. -/
theorem send_audio_payload_size_counterexample :
    ¬ ((sendAudioPayload (List.replicate 3842 0)).length % 320 = 0 ∧
       3840 ≤ (sendAudioPayload (List.replicate 3842 0)).length) := by
  have h := sendAudioPayload_length (List.replicate 3842 0)
    (by simp only [List.length_replicate])
  rw [h]
  simp only [List.length_replicate]
  decide

/-- C1 amended: the decoded payload of an outbound media frame has
2 * ceil(S / 3) bytes, where S is the sample count of the buffer after
zero padding to at least `min_chunk_size` (3840) bytes; in particular
it is always at least 1280 bytes.  It is not in general a multiple of
320 bytes and never reaches 3840 bytes for buffers below 11518 bytes,
because the padding floor applies before downsampling by three. -/
theorem send_audio_payload_size_amended (buffer : List Nat)
    (h : buffer.length % 2 = 0) :
    (sendAudioPayload buffer).length
      = 2 * ((max buffer.length minChunkSize / 2 + 2) / 3) ∧
    1280 ≤ (sendAudioPayload buffer).length := by
  have hl := sendAudioPayload_length buffer h
  refine ⟨hl, ?_⟩
  rw [hl]
  have hm : minChunkSize ≤ max buffer.length minChunkSize := le_max_right _ _
  simp only [minChunkSize] at hm ⊢
  omega

/-- C1 witness: the amended statement at the empty buffer, which is
padded to exactly 3840 bytes and flushes as 1280 payload bytes. -/
theorem send_audio_payload_size_amended_witness :
    ([] : List Nat).length % 2 = 0 ∧
    ((sendAudioPayload ([] : List Nat)).length
        = 2 * ((max ([] : List Nat).length minChunkSize / 2 + 2) / 3) ∧
     1280 ≤ (sendAudioPayload ([] : List Nat)).length) :=
  ⟨rfl, send_audio_payload_size_amended [] rfl⟩

/-- C6 counterexample: a well-formed analyzer response whose call_type
lies outside the allowed set is returned with only call_type coerced to
Others; its summary stays the model text (not a generic string) and its
key_details stays non-empty, so the claim fails at this input. -/
theorem analyze_validation_counterexample :
    callTypeAllowed (Json.str "Kite Enquiry") ["Booking", "Others"] = false ∧
    analyzeValidate
        (some (Json.obj [("call_type", Json.str "Kite Enquiry"),
                         ("summary", Json.str "Customer ordered a cake"),
                         ("key_details", Json.obj [("item", Json.str "cake")])]))
        ["Booking", "Others"]
      = Json.obj [("call_type", Json.str "Others"),
                  ("summary", Json.str "Customer ordered a cake"),
                  ("key_details", Json.obj [("item", Json.str "cake")])] ∧
    jsonGet (analyzeValidate
        (some (Json.obj [("call_type", Json.str "Kite Enquiry"),
                         ("summary", Json.str "Customer ordered a cake"),
                         ("key_details", Json.obj [("item", Json.str "cake")])]))
        ["Booking", "Others"]) "key_details"
      ≠ some (Json.obj []) := by
  refine ⟨rfl, rfl, ?_⟩
  have hv : jsonGet (analyzeValidate
      (some (Json.obj [("call_type", Json.str "Kite Enquiry"),
                       ("summary", Json.str "Customer ordered a cake"),
                       ("key_details", Json.obj [("item", Json.str "cake")])]))
      ["Booking", "Others"]) "key_details"
      = some (Json.obj [("item", Json.str "cake")]) := rfl
  rw [hv]
  simp

/-- C6 amended: a response that fails to parse, is not an object, or
lacks the call_type key yields the fixed fallback with call_type
Others, a generic summary and empty key_details; a response whose
call_type is present but outside the allowed set is returned with only
call_type overwritten to Others, every other key (summary, key_details
included) unchanged. -/
theorem analyze_validation_amended (fields : List (String × Json))
    (callTypes : List String) (v : Json)
    (h1 : jsonLookup fields "call_type" = some v)
    (h2 : callTypeAllowed v callTypes = false) :
    analyzeValidate (some (Json.obj fields)) callTypes
      = Json.obj (jsonSet fields "call_type" (Json.str "Others")) ∧
    jsonGet (analyzeValidate (some (Json.obj fields)) callTypes) "call_type"
      = some (Json.str "Others") ∧
    (∀ k, k ≠ "call_type" →
      jsonGet (analyzeValidate (some (Json.obj fields)) callTypes) k
        = jsonLookup fields k) ∧
    analyzeValidate none callTypes = decodeErrorFallback := by
  have hmain : analyzeValidate (some (Json.obj fields)) callTypes
      = Json.obj (jsonSet fields "call_type" (Json.str "Others")) := by
    simp only [analyzeValidate]
    rw [h1]
    simp [h2]
  refine ⟨hmain, ?_, ?_, rfl⟩
  · rw [hmain]
    simp only [jsonGet]
    exact jsonLookup_jsonSet_self fields "call_type" (Json.str "Others")
  · intro k hk
    rw [hmain]
    simp only [jsonGet]
    exact jsonLookup_jsonSet_other fields "call_type" k (Json.str "Others") hk

/-- C6 witness: the amended statement at a concrete out-of-set
response. -/
theorem analyze_validation_amended_witness :
    (jsonLookup [("call_type", Json.str "Pottery"), ("summary", Json.str "hello")]
        "call_type" = some (Json.str "Pottery") ∧
     callTypeAllowed (Json.str "Pottery") ["Booking", "Others"] = false) ∧
    (analyzeValidate
        (some (Json.obj [("call_type", Json.str "Pottery"),
                         ("summary", Json.str "hello")])) ["Booking", "Others"]
      = Json.obj (jsonSet [("call_type", Json.str "Pottery"),
                           ("summary", Json.str "hello")] "call_type"
          (Json.str "Others")) ∧
     jsonGet (analyzeValidate
        (some (Json.obj [("call_type", Json.str "Pottery"),
                         ("summary", Json.str "hello")])) ["Booking", "Others"])
        "call_type" = some (Json.str "Others") ∧
     (∀ k, k ≠ "call_type" →
       jsonGet (analyzeValidate
          (some (Json.obj [("call_type", Json.str "Pottery"),
                           ("summary", Json.str "hello")])) ["Booking", "Others"]) k
         = jsonLookup [("call_type", Json.str "Pottery"),
                       ("summary", Json.str "hello")] k) ∧
     analyzeValidate none ["Booking", "Others"] = decodeErrorFallback) :=
  ⟨⟨rfl, rfl⟩,
   analyze_validation_amended [("call_type", Json.str "Pottery"),
     ("summary", Json.str "hello")] ["Booking", "Others"] (Json.str "Pottery") rfl rfl⟩

/-- Every turn a sequence of `add_to_transcript` calls with non-empty
roles produces has a non-empty role and non-empty text. -/
theorem foldl_addToTranscript_props :
    ∀ (calls : List (String × String)) (conv : List Turn),
    (∀ p ∈ calls, p.1 ≠ "") → (∀ t ∈ conv, t.role ≠ "" ∧ t.text ≠ "") →
    ∀ t ∈ calls.foldl (fun c p => addToTranscript c p.1 p.2) conv,
      t.role ≠ "" ∧ t.text ≠ "" := by
  intro calls
  induction calls with
  | nil => intro conv _ hconv; simpa using hconv
  | cons p ps ih =>
    intro conv hroles hconv
    simp only [List.foldl_cons]
    refine ih _ (fun q hq => hroles q (List.mem_cons_of_mem _ hq)) ?_
    intro t ht
    unfold addToTranscript at ht
    split at ht
    · rcases List.mem_append.mp ht with hin | hnew
      · exact hconv t hin
      · have : t = ⟨p.1, p.2.trim⟩ := by simpa using hnew
        subst this
        exact ⟨hroles p (List.mem_cons_self p ps), by
          rename_i hcond
          exact hcond.2⟩
    · exact hconv t ht

/-- The merge loop started on a non-empty current group with non-empty
role and text produces a group list headed by that role whose texts are
all non-empty and whose adjacent roles differ. -/
theorem mergeGo_some_spec :
    ∀ (conv : List Turn) (r t : String),
    (∀ m ∈ conv, m.role ≠ "" ∧ m.text ≠ "") → r ≠ "" → t ≠ "" →
    ∃ t2 tl, mergeGo conv (some (r, t)) = ⟨r, t2⟩ :: tl ∧
      (∀ u ∈ (⟨r, t2⟩ : Turn) :: tl, u.text ≠ "") ∧
      List.Chain' (fun a b => a.role ≠ b.role) ((⟨r, t2⟩ : Turn) :: tl) := by
  intro conv
  induction conv with
  | nil =>
    intro r t _ hr ht
    refine ⟨t, [], ?_, ?_, ?_⟩
    · simp [mergeGo, hr]
    · intro u hu
      simp at hu
      subst hu
      exact ht
    · simp
  | cons m ms ih =>
    intro r t hprops hr ht
    by_cases hm : m.role = r
    · have hres : mergeGo (m :: ms) (some (r, t))
          = mergeGo ms (some (r, t ++ " " ++ m.text)) := by
        simp [mergeGo, hm]
      rw [hres]
      exact ih r (t ++ " " ++ m.text)
        (fun q hq => hprops q (List.mem_cons_of_mem _ hq)) hr
        (string_append_ne_empty _ _ (string_append_ne_empty _ _ ht))
    · have hmm := hprops m (List.mem_cons_self m ms)
      obtain ⟨t2, tl, heq, hts, hch⟩ := ih m.role m.text
        (fun q hq => hprops q (List.mem_cons_of_mem _ hq)) hmm.1 hmm.2
      have hres : mergeGo (m :: ms) (some (r, t))
          = ⟨r, t⟩ :: mergeGo ms (some (m.role, m.text)) := by
        simp [mergeGo, hm, hr]
      refine ⟨t, ⟨m.role, t2⟩ :: tl, ?_, ?_, ?_⟩
      · rw [hres, heq]
      · intro u hu
        rcases List.mem_cons.mp hu with rfl | hu2
        · exact ht
        · exact hts u hu2
      · exact List.Chain'.cons (fun hh => hm hh.symm) hch

/-- C2: after finalization the merged transcript built from any
sequence of `add_to_transcript` calls whose roles are non-empty (the
sessions only ever pass the roles user and assistant) has no two
adjacent turns with the same role, and every turn has non-empty text. -/
theorem transcript_merge_invariant (calls : List (String × String))
    (h : ∀ p ∈ calls, p.1 ≠ "") :
    List.Chain' (fun a b => a.role ≠ b.role)
      (mergeConsecutiveMessages (buildTranscript calls)) ∧
    ∀ u ∈ mergeConsecutiveMessages (buildTranscript calls), u.text ≠ "" := by
  have props : ∀ t ∈ buildTranscript calls, t.role ≠ "" ∧ t.text ≠ "" :=
    foldl_addToTranscript_props calls [] h (by simp)
  cases hc : buildTranscript calls with
  | nil => simp [mergeConsecutiveMessages, mergeGo]
  | cons m ms =>
    rw [hc] at props
    have hm := props m (List.mem_cons_self m ms)
    obtain ⟨t2, tl, heq, hts, hch⟩ := mergeGo_some_spec ms m.role m.text
      (fun q hq => props q (List.mem_cons_of_mem _ hq)) hm.1 hm.2
    have hres : mergeConsecutiveMessages (m :: ms) = ⟨m.role, t2⟩ :: tl := by
      unfold mergeConsecutiveMessages
      calc mergeGo (m :: ms) none = mergeGo ms (some (m.role, m.text)) := by
            simp [mergeGo]
        _ = ⟨m.role, t2⟩ :: tl := heq
    rw [hres]
    exact ⟨hch, hts⟩

/-- C2 witness: the merge invariant at a concrete call sequence with
repeated user turns and a whitespace-only turn. -/
theorem transcript_merge_invariant_witness :
    (∀ p ∈ ([("user", "hi"), ("user", "there"), ("assistant", " ok "),
             ("assistant", "   "), ("user", "bye")] : List (String × String)),
      p.1 ≠ "") ∧
    (List.Chain' (fun a b => a.role ≠ b.role)
      (mergeConsecutiveMessages (buildTranscript
        [("user", "hi"), ("user", "there"), ("assistant", " ok "),
         ("assistant", "   "), ("user", "bye")])) ∧
    ∀ u ∈ mergeConsecutiveMessages (buildTranscript
        [("user", "hi"), ("user", "there"), ("assistant", " ok "),
         ("assistant", "   "), ("user", "bye")]), u.text ≠ "") :=
  ⟨by decide, transcript_merge_invariant
    [("user", "hi"), ("user", "there"), ("assistant", " ok "),
     ("assistant", "   "), ("user", "bye")] (by decide)⟩

/-- C3: the sequence numbers carried by all outbound telephony frames a
session emits - media frames, audio-chunk marks and keep-alive marks -
are exactly the consecutive integers from 1, hence strictly increasing
and starting at 1. -/
theorem outbound_sequence_numbers_increasing (cmds : List TelCmd) :
    emittedSeqs cmds = List.range' 1 (sessionFrames cmds).length ∧
    List.Chain' (fun a b => a < b) (emittedSeqs cmds) := by
  have he : emittedSeqs cmds = List.range' 1 (sessionFrames cmds).length := by
    unfold emittedSeqs sessionFrames
    exact runSession_seqs cmds 0 0 0
  exact ⟨he, he ▸ chain_lt_range 1 (sessionFrames cmds).length⟩

end Receptionist
